import Mathlib

/-!
Verification of the pair/list engine of a Scheme interpreter runtime.

The Go source represents runtime data as a tagged interface type Value;
pairs are heap-allocated mutable two-slot cells (PlainPair, LocationPair)
addressed by pointers, and the empty list is the nil interface value.
We embed this as an explicit heap: pair cells live in a list indexed by
natural-number addresses (modelling pointer identity), identifiers live
in a second store (they are pointer values *Identifier in Go), and the
Go nil Value is modelled as the value none of type Option Value.

Loops in the source (list printing, list traversal, list-tail) can run
forever on cyclic heaps, exactly as the Go loops would; we model them
with an explicit fuel argument.  All theorems either use concrete
inputs or carry a hypothesis that the fuel dominates the length of the
list structure involved, so the fuel cutoff is never observed.
-/

namespace SchemeSpec

/-- Modelled from the spec: the Point type (source position) is not part
of the provided source files; the spec says a pair optionally carries a
source span, that pairs without a span report an undefined-location
sentinel, and that a known span has a textual form used as an error
prefix.  We model a Point as its definedness flag plus its textual
form. -/
structure Point where
  defined : Bool
  text : String
deriving DecidableEq, Repr

/-- Point.Undefined reports whether the location is the undefined
sentinel (source: point.Undefined()). -/
def Point.Undefined (p : Point) : Bool := !p.defined

/-- The undefined location sentinel (Go zero value Point\x7b\x7d). -/
def Point.undef : Point := ⟨false, ""⟩

/-- Runtime values.  Constructors mirror the concrete Go kinds relevant
to the claims: Boolean, Number (opaque per the spec; modelled by its
integer content), String, Identifier (a pointer value, modelled by an
address into the identifier store), and Pair (a pointer value, modelled
by an address into the pair store).  The Go nil interface value (the
empty-list sentinel) is modelled as none : Option Value where values
may be absent. -/
inductive Value where
  | boolean : Bool → Value
  | num : Int → Value
  | str : String → Value
  | identRef : Nat → Value
  | pairRef : Nat → Value
deriving DecidableEq, Repr

/-- One pair cell: car and cdr slots (source: PlainPair.car, PlainPair.cdr),
plus the location carried by a LocationPair; a PlainPair cell carries
Point.undef, which is what PlainPair.Location() / PlainPair.From()
return. -/
structure PairCell where
  car : Option Value
  cdr : Option Value
  loc : Point
deriving DecidableEq, Repr

/-- The store of heap objects: pair cells addressed by position, and
identifier objects (their Name field) addressed by position. -/
structure Heap where
  pairs : List PairCell
  idents : List String
deriving DecidableEq, Repr

/-- Look up a pair cell.  Go pointers are always valid, so the default
cell is never reached on heaps described by the hypotheses of the
theorems below. -/
def Heap.cellAt (h : Heap) (a : Nat) : PairCell :=
  (h.pairs[a]?).getD ⟨none, none, Point.undef⟩

/-- Look up an identifier object Name field. -/
def Heap.identName (h : Heap) (a : Nat) : String :=
  (h.idents[a]?).getD ""

/-- Go errors as they matter to the claims: the distinguished sentinel
ErrorInvalidList (source: errors.New with text invalid list), and
fmt.Errorf-produced errors carrying a message string. -/
inductive Err where
  | invalidList
  | msg : String → Err
deriving DecidableEq, Repr

/-- The message text of an error, as fmt prints it with percent-v. -/
def Err.text : Err → String
  | .invalidList => "invalid list"
  | .msg s => s

/-- Identity equality (the Eq method).  The pair case is from the source
(PlainPair.Eq / LocationPair.Eq: type assertion plus pointer equality,
i.e. same cell address); the identifier case is from the source
(Identifier.Eq delegates to Identifier.Equal, which compares the Name
fields); the atom cases (Boolean, Number, String) are not in the
provided source and are modelled from the spec sentence that for
immutable interned atoms value equality may coincide with identity.
Cross-kind comparison is false (the Go methods type-assert their
argument). -/
def eqValue (h : Heap) : Value → Value → Bool
  | .pairRef a, .pairRef b => a == b
  | .identRef a, .identRef b => h.identName a == h.identName b
  | .boolean a, .boolean b => a == b
  | .num a, .num b => a == b
  | .str a, .str b => a == b
  | _, _ => false

/-- Structural equality (the Equal method), with fuel bounding the
recursion depth (the Go recursion diverges on cyclic pair graphs; every
theorem below supplies enough fuel, so the cutoff value false at fuel 0
is never observed).  The pair case is from the source: PlainPair.Equal
type-asserts its argument to the Pair interface and recurses with the
global Equal helper on the car slots and on the cdr slots; that helper
is not in the provided source and is modelled from the spec (deep
structural equality; the empty-list sentinel equals only itself; values
of different concrete kinds are never equal).  The identifier case is
from the source (Identifier.Equal compares Name fields). -/
def equalValue (h : Heap) : Nat → Value → Value → Bool
  | _, .boolean a, .boolean b => a == b
  | _, .num a, .num b => a == b
  | _, .str a, .str b => a == b
  | _, .identRef a, .identRef b => h.identName a == h.identName b
  | 0, .pairRef _, .pairRef _ => false
  | fuel+1, .pairRef a, .pairRef b =>
      (match (h.cellAt a).car, (h.cellAt b).car with
       | none, none => true
       | some x, some y => equalValue h fuel x y
       | _, _ => false) &&
      (match (h.cellAt a).cdr, (h.cellAt b).cdr with
       | none, none => true
       | some x, some y => equalValue h fuel x y
       | _, _ => false)
  | _, _, _ => false

/-- Modelled from the spec: the global Equal helper over possibly-nil
values, used by PlainPair.Equal on the car and cdr slots and by the
tests; nil equals only nil, otherwise it dispatches to the Equal
method. -/
def Equal (h : Heap) (fuel : Nat) : Option Value → Option Value → Bool
  | none, none => true
  | some x, some y => equalValue h fuel x y
  | _, _ => false

/-- Scheme rendering of non-pair values (the Scheme method of each atom
kind).  The identifier case is from the source (Identifier.Scheme
returns the Name); the Boolean, Number and String cases are not in the
provided source and are modelled from the spec sentence that atoms
render as their literal syntax.  The pairRef case is unreachable (pairs
are rendered by schemeF below). -/
def schemeAtom (h : Heap) : Value → String
  | .boolean true => "#t"
  | .boolean false => "#f"
  | .num n => toString n
  | .str s => "\x22" ++ s ++ "\x22"
  | .identRef a => h.identName a
  | .pairRef _ => ""

/-- Display (fmt percent-v) rendering of non-pair values: Go fmt calls
the String method.  Identifier.String returns the Name (source); the
other atom cases are modelled like schemeAtom except that a String
value prints without quotes. -/
def displayAtom (h : Heap) : Value → String
  | .boolean true => "#t"
  | .boolean false => "#f"
  | .num n => toString n
  | .str s => s
  | .identRef a => h.identName a
  | .pairRef _ => ""

/-- The body (between the parentheses) of PlainPair.String: the source
walks the cdr chain printing each car separated by single spaces; a nil
car prints as nil, a pair car recurses through Scheme(); when a cdr is
neither a Pair nor nil the printer emits a dot and the percent-v form
of that cdr and stops; a nil cdr stops.  Fuel bounds the walk (the Go
loop diverges on cyclic heaps). -/
def pairBodyF (h : Heap) : Nat → Nat → String
  | 0, _ => ""
  | fuel+1, a =>
    (match (h.cellAt a).car with
     | none => "nil"
     | some (.pairRef b) => "(" ++ pairBodyF h fuel b ++ ")"
     | some v => schemeAtom h v) ++
    (match (h.cellAt a).cdr with
     | some (.pairRef b) => " " ++ pairBodyF h fuel b
     | none => ""
     | some v => " . " ++ displayAtom h v)

/-- The Scheme method of any value: pairs print as parenthesized chains
(PlainPair.String, source), atoms as their literal syntax. -/
def schemeF (h : Heap) (fuel : Nat) : Value → String
  | .pairRef a =>
    match fuel with
    | 0 => ""
    | f+1 => "(" ++ pairBodyF h f a ++ ")"
  | v => schemeAtom h v

/-- The fmt percent-v rendering of any value (String method); for pairs
PlainPair.String, for atoms their display form. -/
def displayF (h : Heap) (fuel : Nat) : Value → String
  | .pairRef a =>
    match fuel with
    | 0 => ""
    | f+1 => "(" ++ pairBodyF h f a ++ ")"
  | v => displayAtom h v

/-- The fmt percent-v rendering of a possibly-nil value: Go fmt prints
a nil interface as the three characters less-than nil greater-than. -/
def displayOpt (h : Heap) (fuel : Nat) : Option Value → String
  | none => "<nil>"
  | some v => displayF h fuel v

/-- ToScheme from the source: a nil value renders as quote-open-close,
otherwise the Scheme method of the value. -/
def ToScheme (h : Heap) (fuel : Nat) : Option Value → String
  | none => "\x27()"
  | some v => schemeF h fuel v

/-- Location wrapping of a callback error, from the source bodies of Map
and MapPairs: the current pair location is read (Location() in one
source file, From() in the other, both the loc slot of the cell); if it
is undefined the error is returned unchanged, otherwise a new error is
produced by fmt.Errorf with the position text, a colon-space separator,
and the percent-v form of the inner error. -/
def wrapLoc (h : Heap) (a : Nat) (e : Err) : Err :=
  if ((h.cellAt a).loc).Undefined then e
  else .msg (((h.cellAt a).loc).text ++ ": " ++ e.text)

/-- The loop of MapPairs (source file with ListPairs): the callback is
invoked with the running index and the current pair; a callback error
is wrapped with the pair location and returned; then the cdr decides:
another pair continues, nil ends with success, anything else is the
invalid-list sentinel error.  Fuel bounds the walk (the Go loop
diverges on cyclic heaps; with fuel at least the chain length the
cutoff result none is never reached). -/
def mapPairsLoop (h : Heap) (f : Nat → Nat → Option Err) : Nat → Nat → Nat → Option Err
  | 0, _, _ => none
  | fuel+1, idx, a =>
    match f idx a with
    | some e => some (wrapLoc h a e)
    | none =>
      match (h.cellAt a).cdr with
      | some (.pairRef b) => mapPairsLoop h f fuel (idx+1) b
      | none => none
      | some _ => some Err.invalidList

/-- MapPairs from the source: nil succeeds immediately; a non-pair
argument is the invalid-list sentinel error; otherwise the loop above
runs from index 0. -/
def MapPairs (h : Heap) (fuel : Nat) (f : Nat → Nat → Option Err) : Option Value → Option Err
  | none => none
  | some (.pairRef a) => mapPairsLoop h f fuel 0 a
  | some _ => some Err.invalidList

/-- The loop of Map (source file list dot go): identical to the MapPairs
loop except that the callback receives the car of the current pair
instead of the pair itself. -/
def mapLoop (h : Heap) (f : Nat → Option Value → Option Err) : Nat → Nat → Nat → Option Err
  | 0, _, _ => none
  | fuel+1, idx, a =>
    match f idx (h.cellAt a).car with
    | some e => some (wrapLoc h a e)
    | none =>
      match (h.cellAt a).cdr with
      | some (.pairRef b) => mapLoop h f fuel (idx+1) b
      | none => none
      | some _ => some Err.invalidList

/-- Map from the source: nil succeeds immediately; a non-pair argument
is the invalid-list sentinel error; otherwise the element loop runs
from index 0. -/
def Map (h : Heap) (fuel : Nat) (f : Nat → Option Value → Option Err) : Option Value → Option Err
  | none => none
  | some (.pairRef a) => mapLoop h f fuel 0 a
  | some _ => some Err.invalidList

/-- Car helper from the source: on an ok input that is a pair it yields
the car and true, otherwise the unchanged input and false. -/
def Car (h : Heap) (pair : Option Value) (ok : Bool) : Option Value × Bool :=
  if !ok then (pair, false)
  else
    match pair with
    | some (.pairRef a) => ((h.cellAt a).car, true)
    | _ => (pair, false)

/-- Cdr helper from the source: on an ok input that is a pair it yields
the cdr and true, otherwise the unchanged input and false. -/
def Cdr (h : Heap) (pair : Option Value) (ok : Bool) : Option Value × Bool :=
  if !ok then (pair, false)
  else
    match pair with
    | some (.pairRef a) => ((h.cellAt a).cdr, true)
    | _ => (pair, false)

/-- Outcome of the shared index-advancing loop of the list-tail and
list-ref builtins: done means the loop ran all k iterations and holds
the final cursor; short means the cursor became nil with iterations
remaining (the post-loop i less than k test fires); invalid means the
Cdr helper failed and holds the cursor at the failure. -/
inductive TailRes where
  | done : Option Value → TailRes
  | short : TailRes
  | invalid : Option Value → TailRes
deriving DecidableEq, Repr

/-- The loop shared by the list-tail and list-ref builtins, from the
source: for i from 0 while i less than k and the cursor is non-nil,
advance the cursor with Cdr, failing if Cdr reports a non-pair.  The
fuel argument is the remaining iteration count (k truncated at zero,
since the loop guard i less than k admits no iteration for k at most
zero). -/
def tailLoop (h : Heap) : Nat → Option Value → TailRes
  | 0, pair => .done pair
  | _+1, none => .short
  | n+1, some v =>
    match Cdr h (some v) true with
    | (p, true) => tailLoop h n p
    | (p, false) => .invalid p

/-- The list-tail builtin from the source: the index argument must be a
Number (else an invalid-index error naming it); the loop advances k
times; exhausting the list early is an out-of-range error naming the
index and the original list argument; a Cdr failure is an invalid-list
error naming the cursor; otherwise the final cursor is returned.  The
rfuel argument only feeds the renderings inside error messages. -/
def listTailB (h : Heap) (rfuel : Nat) (list kArg : Option Value) : Except Err (Option Value) :=
  match kArg with
  | some (.num k) =>
    match tailLoop h k.toNat list with
    | .done pair => .ok pair
    | .short =>
        .error (.msg ("list-tail: index " ++ toString k ++
          " out of range for list " ++ displayOpt h rfuel list))
    | .invalid p => .error (.msg ("list-tail: invalid list: " ++ displayOpt h rfuel p))
  | _ => .error (.msg ("list-tail: invalid index: " ++ displayOpt h rfuel kArg))

/-- The list-ref builtin from the source: same index check and same
loop as list-tail; after the loop a nil cursor is an out-of-range error
naming the index and the original list argument; otherwise the Car
helper extracts the element, a non-pair cursor being an invalid-list
error naming the cursor. -/
def listRefB (h : Heap) (rfuel : Nat) (list kArg : Option Value) : Except Err (Option Value) :=
  match kArg with
  | some (.num k) =>
    match tailLoop h k.toNat list with
    | .done pair =>
      match pair with
      | none =>
          .error (.msg ("list-ref: index " ++ toString k ++
            " out of range for list " ++ displayOpt h rfuel list))
      | some v =>
        match Car h (some v) true with
        | (p, true) => .ok p
        | (p, false) => .error (.msg ("list-ref: invalid list: " ++ displayOpt h rfuel p))
    | .short =>
        .error (.msg ("list-ref: index " ++ toString k ++
          " out of range for list " ++ displayOpt h rfuel list))
    | .invalid p => .error (.msg ("list-ref: invalid list: " ++ displayOpt h rfuel p))
  | _ => .error (.msg ("list-ref: invalid index: " ++ displayOpt h rfuel kArg))

/-- PlainPair.SetCar from the source: replace the car slot of the
addressed cell in place (the Go method always returns a nil error). -/
def Heap.SetCar (h : Heap) (a : Nat) (v : Option Value) : Heap :=
  { h with pairs := h.pairs.set a { h.cellAt a with car := v } }

/-- PlainPair.SetCdr from the source: replace the cdr slot of the
addressed cell in place. -/
def Heap.SetCdr (h : Heap) (a : Nat) (v : Option Value) : Heap :=
  { h with pairs := h.pairs.set a { h.cellAt a with cdr := v } }

/-- The set-car exclamation builtin from the source: a non-pair first
argument is an error naming it; otherwise the car slot is replaced in
place and the builtin returns nil (the Go code returns the nil Value
and a nil error). -/
def setCarB (h : Heap) (rfuel : Nat) (a0 a1 : Option Value) : Except Err (Option Value) × Heap :=
  match a0 with
  | some (.pairRef a) => (.ok none, h.SetCar a a1)
  | _ => (.error (.msg ("set-car!: not a pair: " ++ displayOpt h rfuel a0)), h)

/-- The set-cdr exclamation builtin from the source: a non-pair first
argument is an error naming it; otherwise the cdr slot is replaced in
place and the builtin returns nil. -/
def setCdrB (h : Heap) (rfuel : Nat) (a0 a1 : Option Value) : Except Err (Option Value) × Heap :=
  match a0 with
  | some (.pairRef a) => (.ok none, h.SetCdr a a1)
  | _ => (.error (.msg ("set-cdr!: not a pair: " ++ displayOpt h rfuel a0)), h)

/-- The null question-mark builtin from the source: a Boolean telling
whether the argument is the nil Value. -/
def nullB (arg : Option Value) : Except Err (Option Value) :=
  .ok (some (.boolean arg.isNone))

/-- Default entry for indexing into a chain description. -/
def dummyPC : Nat × PairCell := (0, ⟨none, none, Point.undef⟩)

/-- A pair chain in the heap, described for the theorems: the list pairs
each visited address with the cell stored there, consecutive cells are
linked through their cdr slots, and the terminal value t is the cdr of
the last cell, which is not a pair (so t is either nil, making the
chain a proper list, or a non-pair value, making it improper). -/
inductive IsChain (h : Heap) : Nat → List (Nat × PairCell) → Option Value → Prop
  | last (a : Nat) (cell : PairCell)
      (hcell : h.pairs[a]? = some cell)
      (hterm : ∀ b, cell.cdr ≠ some (.pairRef b)) :
      IsChain h a [(a, cell)] cell.cdr
  | cons (a b : Nat) (cell : PairCell) (rest : List (Nat × PairCell)) (t : Option Value)
      (hcell : h.pairs[a]? = some cell)
      (hcdr : cell.cdr = some (.pairRef b))
      (htail : IsChain h b rest t) :
      IsChain h a ((a, cell) :: rest) t

/-- Spec-side description of MapPairs on a chain, following the spec
words: the callback is invoked once per pair, in chain order, with
indices increasing from the given start; the first callback error is
propagated with the location of its pair prefixed; after the last pair,
a nil terminal is success and any other terminal is the distinguished
invalid-list error. -/
def mapPairsSpec (h : Heap) (f : Nat → Nat → Option Err) (t : Option Value) :
    Nat → List (Nat × PairCell) → Option Err
  | _, [] =>
    match t with
    | none => none
    | some _ => some Err.invalidList
  | i, (a, _) :: rest =>
    match f i a with
    | some e => some (wrapLoc h a e)
    | none => mapPairsSpec h f t (i+1) rest

/-- Spec-side description of Map on a chain: like mapPairsSpec but the
callback receives the element (the car of each pair). -/
def mapSpec (h : Heap) (f : Nat → Option Value → Option Err) (t : Option Value) :
    Nat → List (Nat × PairCell) → Option Err
  | _, [] =>
    match t with
    | none => none
    | some _ => some Err.invalidList
  | i, (a, c) :: rest =>
    match f i c.car with
    | some e => some (wrapLoc h a e)
    | none => mapSpec h f t (i+1) rest

/-- Spec-side rendering of the car slot of a cell, as the printing loop
produces it: a nil car prints as nil, any other car through its Scheme
method. -/
def carStrF (h : Heap) (fuel : Nat) : Option Value → String
  | none => "nil"
  | some v => schemeF h fuel v

/-- Spec-side rendering of the terminal of a chain: a proper list adds
nothing, an improper terminal adds the dotted-tail notation with the
percent-v form of the terminal (which is a non-pair whenever IsChain
holds). -/
def tailStrF (h : Heap) : Option Value → String
  | none => ""
  | some v => " . " ++ displayAtom h v

/-- Spec-side join of element renderings separated by single spaces. -/
def renderJoin : List String → String
  | [] => ""
  | [s] => s
  | s :: rest => s ++ " " ++ renderJoin rest

/-- Concrete heap holding the proper three-element list (1 2 3) at
address 0, used by the concrete witnesses below. -/
def hp3 : Heap :=
  ⟨[⟨some (.num 1), some (.pairRef 1), Point.undef⟩,
    ⟨some (.num 2), some (.pairRef 2), Point.undef⟩,
    ⟨some (.num 3), none, Point.undef⟩], []⟩

/-- Concrete heap holding the one-element list (1) whose single cell
carries a defined source location. -/
def hpLoc : Heap :=
  ⟨[⟨some (.num 1), none, ⟨true, "test:1:2"⟩⟩], []⟩

/-- Concrete heap holding the one-element list (1) without location. -/
def hpOne : Heap :=
  ⟨[⟨some (.num 1), none, Point.undef⟩], []⟩

/-- Concrete heap holding two distinct identifier objects that share
the name foo. -/
def hpIds : Heap :=
  ⟨[], ["foo", "foo"]⟩

/-- Concrete heap holding two distinct pair cells with structurally
equal contents (both cells hold the one-element list (1)). -/
def hpTwin : Heap :=
  ⟨[⟨some (.num 1), none, Point.undef⟩,
    ⟨some (.num 1), none, Point.undef⟩], []⟩

/-- Concrete never-failing pair callback for the witnesses. -/
def noFailP : Nat → Nat → Option Err := fun _ _ => none

/-- Concrete never-failing element callback for the witnesses. -/
def noFailE : Nat → Option Value → Option Err := fun _ _ => none

/-- Concrete always-failing pair callback for the witnesses. -/
def boomP : Nat → Nat → Option Err := fun _ _ => some (.msg "boom")

/-- Concrete always-failing element callback for the witnesses. -/
def boomE : Nat → Option Value → Option Err := fun _ _ => some (.msg "boom")

deriving instance DecidableEq for Except

theorem Heap.cellAt_eq (h : Heap) {a : Nat} {c : PairCell}
    (hc : h.pairs[a]? = some c) : h.cellAt a = c := by
  simp [Heap.cellAt, hc]

theorem IsChain.ne_nil {h : Heap} {a : Nat} {chain : List (Nat × PairCell)} {t : Option Value}
    (hc : IsChain h a chain t) : chain ≠ [] := by
  cases hc <;> simp

theorem IsChain.mem_cell {h : Heap} {a : Nat} {chain : List (Nat × PairCell)} {t : Option Value}
    (hc : IsChain h a chain t) :
    ∀ p ∈ chain, h.pairs[p.1]? = some p.2 := by
  induction hc with
  | last a cell hcell hterm =>
    intro p hp
    simp only [List.mem_singleton] at hp
    subst hp
    exact hcell
  | cons a b cell rest t hcell hcdr htail ih =>
    intro p hp
    rcases List.mem_cons.mp hp with hp | hp
    · subst hp
      exact hcell
    · exact ih p hp

theorem mapPairsLoop_eq_spec (h : Heap) (f : Nat → Nat → Option Err)
    {a : Nat} {chain : List (Nat × PairCell)} {t : Option Value}
    (hc : IsChain h a chain t) :
    ∀ fuel idx, chain.length ≤ fuel →
      mapPairsLoop h f fuel idx a = mapPairsSpec h f t idx chain := by
  induction hc with
  | last a cell hcell hterm =>
    intro fuel idx hf
    match fuel, hf with
    | fuel+1, _ =>
      rw [mapPairsLoop, mapPairsSpec, Heap.cellAt_eq h hcell]
      cases f idx a with
      | some e => rfl
      | none =>
        rcases hcd : cell.cdr with _ | v
        · simp [mapPairsSpec, hcd]
        · rcases v with b | n | s | i | b
          · simp [mapPairsSpec, hcd]
          · simp [mapPairsSpec, hcd]
          · simp [mapPairsSpec, hcd]
          · simp [mapPairsSpec, hcd]
          · exact absurd hcd (hterm b)
  | cons a b cell rest t hcell hcdr htail ih =>
    intro fuel idx hf
    match fuel, hf with
    | fuel+1, hf =>
      rw [mapPairsLoop, mapPairsSpec, Heap.cellAt_eq h hcell]
      cases f idx a with
      | some e => rfl
      | none =>
        rw [hcdr]
        exact ih fuel (idx+1) (by simpa using hf)

theorem mapLoop_eq_spec (h : Heap) (f : Nat → Option Value → Option Err)
    {a : Nat} {chain : List (Nat × PairCell)} {t : Option Value}
    (hc : IsChain h a chain t) :
    ∀ fuel idx, chain.length ≤ fuel →
      mapLoop h f fuel idx a = mapSpec h f t idx chain := by
  induction hc with
  | last a cell hcell hterm =>
    intro fuel idx hf
    match fuel, hf with
    | fuel+1, _ =>
      rw [mapLoop, mapSpec, Heap.cellAt_eq h hcell]
      cases f idx cell.car with
      | some e => rfl
      | none =>
        rcases hcd : cell.cdr with _ | v
        · simp [mapSpec, hcd]
        · rcases v with b | n | s | i | b
          · simp [mapSpec, hcd]
          · simp [mapSpec, hcd]
          · simp [mapSpec, hcd]
          · simp [mapSpec, hcd]
          · exact absurd hcd (hterm b)
  | cons a b cell rest t hcell hcdr htail ih =>
    intro fuel idx hf
    match fuel, hf with
    | fuel+1, hf =>
      rw [mapLoop, mapSpec, Heap.cellAt_eq h hcell]
      cases f idx cell.car with
      | some e => rfl
      | none =>
        rw [hcdr]
        exact ih fuel (idx+1) (by simpa using hf)

theorem mapPairsSpec_allOk (h : Heap) (f : Nat → Nat → Option Err) (t : Option Value)
    (hok : ∀ i x, f i x = none) :
    ∀ (chain : List (Nat × PairCell)) (idx : Nat),
      mapPairsSpec h f t idx chain =
        match t with
        | none => none
        | some _ => some Err.invalidList := by
  intro chain
  induction chain with
  | nil => intro idx; rfl
  | cons p rest ih =>
    intro idx
    obtain ⟨a, c⟩ := p
    rw [mapPairsSpec, hok]
    exact ih (idx+1)

theorem mapSpec_allOk (h : Heap) (f : Nat → Option Value → Option Err) (t : Option Value)
    (hok : ∀ i x, f i x = none) :
    ∀ (chain : List (Nat × PairCell)) (idx : Nat),
      mapSpec h f t idx chain =
        match t with
        | none => none
        | some _ => some Err.invalidList := by
  intro chain
  induction chain with
  | nil => intro idx; rfl
  | cons p rest ih =>
    intro idx
    obtain ⟨a, c⟩ := p
    rw [mapSpec, hok]
    exact ih (idx+1)

theorem mapPairsSpec_firstFail (h : Heap) (f : Nat → Nat → Option Err)
    (t : Option Value) (e : Err) :
    ∀ (chain : List (Nat × PairCell)) (idx j : Nat), j < chain.length →
      (∀ i, i < j → f (idx + i) ((chain.getD i dummyPC).1) = none) →
      f (idx + j) ((chain.getD j dummyPC).1) = some e →
      mapPairsSpec h f t idx chain = some (wrapLoc h ((chain.getD j dummyPC).1) e) := by
  intro chain
  induction chain with
  | nil =>
    intro idx j hj
    simp at hj
  | cons p rest ih =>
    intro idx j hj hok herr
    obtain ⟨a, c⟩ := p
    cases j with
    | zero =>
      simp only [List.getD_cons_zero, Nat.add_zero] at herr ⊢
      rw [mapPairsSpec, herr]
    | succ j =>
      simp only [List.getD_cons_succ] at herr ⊢
      have h0 : f idx a = none := by simpa using hok 0 (Nat.succ_pos j)
      rw [mapPairsSpec, h0]
      have harith : ∀ i : Nat, idx + (i + 1) = (idx + 1) + i := by omega
      refine ih (idx+1) j (by simpa using hj) (fun i hi => ?_) ?_
      · have := hok (i+1) (by omega)
        rw [List.getD_cons_succ, harith i] at this
        exact this
      · rw [harith j] at herr
        exact herr

theorem mapSpec_firstFail (h : Heap) (f : Nat → Option Value → Option Err)
    (t : Option Value) (e : Err) :
    ∀ (chain : List (Nat × PairCell)) (idx j : Nat), j < chain.length →
      (∀ i, i < j → f (idx + i) ((chain.getD i dummyPC).2.car) = none) →
      f (idx + j) ((chain.getD j dummyPC).2.car) = some e →
      mapSpec h f t idx chain = some (wrapLoc h ((chain.getD j dummyPC).1) e) := by
  intro chain
  induction chain with
  | nil =>
    intro idx j hj
    simp at hj
  | cons p rest ih =>
    intro idx j hj hok herr
    obtain ⟨a, c⟩ := p
    cases j with
    | zero =>
      simp only [List.getD_cons_zero, Nat.add_zero] at herr ⊢
      rw [mapSpec, herr]
    | succ j =>
      simp only [List.getD_cons_succ] at herr ⊢
      have h0 : f idx c.car = none := by simpa using hok 0 (Nat.succ_pos j)
      rw [mapSpec, h0]
      have harith : ∀ i : Nat, idx + (i + 1) = (idx + 1) + i := by omega
      refine ih (idx+1) j (by simpa using hj) (fun i hi => ?_) ?_
      · have := hok (i+1) (by omega)
        rw [List.getD_cons_succ, harith i] at this
        exact this
      · rw [harith j] at herr
        exact herr

theorem pairBodyF_succ (h : Heap) (m a : Nat) :
    pairBodyF h (m+1) a =
      carStrF h (m+1) ((h.cellAt a).car) ++
      (match (h.cellAt a).cdr with
       | some (.pairRef b) => " " ++ pairBodyF h m b
       | none => ""
       | some v => " . " ++ displayAtom h v) := by
  rw [pairBodyF]
  congr 1
  rcases (h.cellAt a).car with _ | v
  · rfl
  · rcases v <;> rfl

theorem pairBodyF_chain (h : Heap) {a : Nat} {chain : List (Nat × PairCell)} {t : Option Value}
    (hc : IsChain h a chain t) :
    ∀ (ss : List String) (fuel0 : Nat),
      ss.length = chain.length →
      (∀ i, i < chain.length → ∀ f, fuel0 ≤ f →
        carStrF h f ((chain.getD i dummyPC).2.car) = ss.getD i "") →
      ∀ m, fuel0 + chain.length ≤ m →
        pairBodyF h m a = renderJoin ss ++ tailStrF h t := by
  induction hc with
  | last a cell hcell hterm =>
    intro ss fuel0 hlen hcar m hm
    match ss, hlen with
    | [s], _ =>
      obtain ⟨mp, rfl⟩ : ∃ mp, m = mp + 1 := ⟨m - 1, by simp at hm; omega⟩
      rw [pairBodyF_succ, Heap.cellAt_eq h hcell]
      have hcs : carStrF h (mp+1) cell.car = s := by
        simpa using hcar 0 (by simp) (mp+1) (by simp at hm; omega)
      rw [hcs]
      rcases hcd : cell.cdr with _ | v
      · rfl
      · rcases v with b | n | s2 | i | b
        · rfl
        · rfl
        · rfl
        · rfl
        · exact absurd hcd (hterm b)
  | cons a b cell rest t hcell hcdr htail ih =>
    intro ss fuel0 hlen hcar m hm
    match ss, hlen with
    | s :: ssr, hlen =>
      have hrne : rest ≠ [] := htail.ne_nil
      have hsne : ssr ≠ [] := by
        intro hcon
        apply hrne
        have hl2 : ssr.length = rest.length := by simpa using hlen
        rw [hcon] at hl2
        exact List.length_eq_zero.mp hl2.symm
      obtain ⟨mp, rfl⟩ : ∃ mp, m = mp + 1 := ⟨m - 1, by simp at hm; omega⟩
      rw [pairBodyF_succ, Heap.cellAt_eq h hcell, hcdr]
      have hcs : carStrF h (mp+1) cell.car = s := by
        simpa using hcar 0 (by simp) (mp+1) (by simp at hm; omega)
      rw [hcs]
      have hrec : pairBodyF h mp b = renderJoin ssr ++ tailStrF h t := by
        refine ih ssr fuel0 (by simpa using hlen) (fun i hi f hf => ?_) mp (by simp at hm; omega)
        simpa using hcar (i+1) (by simpa using hi) f hf
      show s ++ (" " ++ pairBodyF h mp b) = renderJoin (s :: ssr) ++ tailStrF h t
      rw [hrec]
      obtain ⟨s2, ssq, rfl⟩ := List.exists_cons_of_ne_nil hsne
      simp [renderJoin, String.append_assoc]

/-- Kind tag of a value, used to state cross-kind equality facts (the
concrete dynamic type a Go type assertion inspects). -/
def Value.kind : Value → Nat
  | .boolean _ => 0
  | .num _ => 1
  | .str _ => 2
  | .identRef _ => 3
  | .pairRef _ => 4

theorem equalValue_cross (h : Heap) :
    ∀ (f : Nat) (v w : Value), v.kind ≠ w.kind → equalValue h f v w = false := by
  intro f v w hne
  cases v <;> cases w <;> simp [Value.kind] at hne ⊢ <;> cases f <;> rfl

theorem equalValue_pair_succ (h : Heap) (f : Nat) (x y : Nat) :
    equalValue h (f+1) (.pairRef x) (.pairRef y) =
      (Equal h f ((h.cellAt x).car) ((h.cellAt y).car) &&
       Equal h f ((h.cellAt x).cdr) ((h.cellAt y).cdr)) := by
  rfl

/-- C1: on every proper list of exactly three elements, the list-tail
builtin succeeds for every index k in 0..3, index 3 returning the
empty-list sentinel nil, and fails for index 4 with an error naming the
attempted index and the list; the list-ref builtin succeeds for every
index k in 0..2, returning the k-th element, and fails for index 3 with
an error naming the attempted index and the list. -/
theorem c1_index_boundaries (h : Heap) (rfuel : Nat) (a0 a1 a2 : Nat) (c0 c1 c2 : PairCell)
    (h0 : h.pairs[a0]? = some c0) (h1 : h.pairs[a1]? = some c1) (h2 : h.pairs[a2]? = some c2)
    (d0 : c0.cdr = some (.pairRef a1)) (d1 : c1.cdr = some (.pairRef a2)) (d2 : c2.cdr = none) :
    (listTailB h rfuel (some (.pairRef a0)) (some (.num 0)) = .ok (some (.pairRef a0))) ∧
    (listTailB h rfuel (some (.pairRef a0)) (some (.num 1)) = .ok (some (.pairRef a1))) ∧
    (listTailB h rfuel (some (.pairRef a0)) (some (.num 2)) = .ok (some (.pairRef a2))) ∧
    (listTailB h rfuel (some (.pairRef a0)) (some (.num 3)) = .ok none) ∧
    (listTailB h rfuel (some (.pairRef a0)) (some (.num 4)) =
      .error (.msg ("list-tail: index 4 out of range for list " ++
        displayOpt h rfuel (some (.pairRef a0))))) ∧
    (listRefB h rfuel (some (.pairRef a0)) (some (.num 0)) = .ok c0.car) ∧
    (listRefB h rfuel (some (.pairRef a0)) (some (.num 1)) = .ok c1.car) ∧
    (listRefB h rfuel (some (.pairRef a0)) (some (.num 2)) = .ok c2.car) ∧
    (listRefB h rfuel (some (.pairRef a0)) (some (.num 3)) =
      .error (.msg ("list-ref: index 3 out of range for list " ++
        displayOpt h rfuel (some (.pairRef a0))))) := by
  have e0 := Heap.cellAt_eq h h0
  have e1 := Heap.cellAt_eq h h1
  have e2 := Heap.cellAt_eq h h2
  refine ⟨?_, ?_, ?_, ?_, ?_, ?_, ?_, ?_, ?_⟩ <;>
    simp [listTailB, listRefB, tailLoop, Cdr, Car, e0, e1, e2, d0, d1, d2,
      show toString (4:Int) = "4" from rfl, show toString (3:Int) = "3" from rfl]

/-- Witness for C1 on the concrete heap hp3 holding the list (1 2 3):
list-tail at index 3 yields nil and list-ref at index 3 fails naming
the index and the list. -/
theorem c1_index_boundaries_witness :
    (listTailB hp3 10 (some (.pairRef 0)) (some (.num 3)) = .ok none) ∧
    (listRefB hp3 10 (some (.pairRef 0)) (some (.num 3)) =
      .error (.msg ("list-ref: index 3 out of range for list " ++
        displayOpt hp3 10 (some (.pairRef 0))))) := by
  have hfull := c1_index_boundaries hp3 10 0 1 2
    ⟨some (.num 1), some (.pairRef 1), Point.undef⟩
    ⟨some (.num 2), some (.pairRef 2), Point.undef⟩
    ⟨some (.num 3), none, Point.undef⟩
    rfl rfl rfl rfl rfl rfl
  exact ⟨hfull.2.2.2.1, hfull.2.2.2.2.2.2.2.2⟩

/-- C2 counterexample: on the concrete list (1 2 3) at index 3, the
out-of-range error of list-ref renders the original list, not the
remaining tail at which traversal stopped: the traversal stops at the
nil tail, and none of the possible renderings of that nil tail (the
quoted empty list of ToScheme, a bare pair of parentheses, or the fmt
form of a nil interface) occurs inside the message. -/
theorem c2_counterexample :
    (listRefB hp3 10 (some (.pairRef 0)) (some (.num 3)) =
      .error (.msg "list-ref: index 3 out of range for list (1 2 3)")) ∧
    (tailLoop hp3 3 (some (.pairRef 0)) = .done none) ∧
    ¬ List.IsInfix ("\x27()").data ("list-ref: index 3 out of range for list (1 2 3)").data ∧
    ¬ List.IsInfix ("()").data ("list-ref: index 3 out of range for list (1 2 3)").data ∧
    ¬ List.IsInfix ("<nil>").data ("list-ref: index 3 out of range for list (1 2 3)").data := by
  exact ⟨by decide, by decide, by decide, by decide, by decide⟩

/-- C2 amended: when the index is out of range the list-ref error names
the attempted index and the original list argument (the remaining tail
at the stop point is necessarily nil there and is not what the message
renders); the error is distinct from the list-tail error for the same
condition: when the loop stops short both builtins fail but with
messages differing in the builtin name, and at an index equal to the
list length list-ref fails while list-tail succeeds with nil. -/
theorem c2_out_of_range_error (h : Heap) (rfuel : Nat) (list : Option Value) (k : Int) :
    (tailLoop h k.toNat list = .short →
      (listRefB h rfuel list (some (.num k)) =
        .error (.msg ("list-ref: index " ++ toString k ++
          " out of range for list " ++ displayOpt h rfuel list))) ∧
      (listTailB h rfuel list (some (.num k)) =
        .error (.msg ("list-tail: index " ++ toString k ++
          " out of range for list " ++ displayOpt h rfuel list)))) ∧
    (tailLoop h k.toNat list = .done none →
      (listRefB h rfuel list (some (.num k)) =
        .error (.msg ("list-ref: index " ++ toString k ++
          " out of range for list " ++ displayOpt h rfuel list))) ∧
      (listTailB h rfuel list (some (.num k)) = .ok none)) ∧
    ("list-ref: index " ++ toString k ++ " out of range for list " ++ displayOpt h rfuel list ≠
     "list-tail: index " ++ toString k ++ " out of range for list " ++ displayOpt h rfuel list) := by
  refine ⟨fun hshort => ?_, fun hdone => ?_, fun heq => ?_⟩
  · rw [listRefB, listTailB, hshort]
    exact ⟨rfl, rfl⟩
  · rw [listRefB, listTailB, hdone]
    exact ⟨rfl, rfl⟩
  · have hlen := congrArg String.length heq
    rw [String.length_append, String.length_append, String.length_append,
        String.length_append, String.length_append, String.length_append] at hlen
    rw [show ("list-ref: index ").length = 16 from rfl,
        show ("list-tail: index ").length = 17 from rfl] at hlen
    omega

/-- Witness for C2 amended on the concrete heap hp3: index 4 is short
for the three-element list, producing the two distinct messages. -/
theorem c2_out_of_range_error_witness :
    (listRefB hp3 10 (some (.pairRef 0)) (some (.num 4)) =
      .error (.msg ("list-ref: index " ++ toString (4:Int) ++
        " out of range for list " ++ displayOpt hp3 10 (some (.pairRef 0))))) ∧
    (listTailB hp3 10 (some (.pairRef 0)) (some (.num 4)) =
      .error (.msg ("list-tail: index " ++ toString (4:Int) ++
        " out of range for list " ++ displayOpt hp3 10 (some (.pairRef 0))))) :=
  (c2_out_of_range_error hp3 10 (some (.pairRef 0)) 4).1 (by decide)

/-- C10: a negative Number index is never rejected by list-tail or
list-ref: list-tail returns its list argument unchanged for every
argument value, list-ref on a pair returns the car of that pair, and
list-ref on the empty list reports an out-of-range error naming the
negative index and the fmt rendering of the nil list. -/
theorem c10_negative_index (h : Heap) (rfuel : Nat) (k : Int) (hk : k < 0) :
    (∀ list : Option Value, listTailB h rfuel list (some (.num k)) = .ok list) ∧
    (∀ a : Nat, listRefB h rfuel (some (.pairRef a)) (some (.num k)) = .ok ((h.cellAt a).car)) ∧
    (listRefB h rfuel none (some (.num k)) =
      .error (.msg ("list-ref: index " ++ toString k ++ " out of range for list <nil>"))) := by
  have h0 : k.toNat = 0 := Int.toNat_of_nonpos hk.le
  refine ⟨fun list => ?_, fun a => ?_, ?_⟩
  · rw [listTailB, h0]
    simp [tailLoop]
  · rw [listRefB, h0]
    simp [tailLoop, Car]
  · rw [listRefB, h0]
    simp only [tailLoop, displayOpt]
    rw [String.append_assoc]
    rfl

/-- C3: the traversal primitives succeed on the empty-list sentinel nil;
they return the distinguished invalid-list error on any non-pair,
non-nil argument; on a pair chain they are fully characterized by the
spec-side fold that invokes the callback once per pair or element, in
chain order, with indices increasing from 0; in particular, when the
callback never fails, they return the invalid-list error exactly when
the chain terminal is a non-nil (malformed) tail, and succeed on every
proper list. -/
theorem c3_traversal_invalid_list (h : Heap) (fuel : Nat)
    (fp : Nat → Nat → Option Err) (fe : Nat → Option Value → Option Err)
    (a : Nat) (chain : List (Nat × PairCell)) (t : Option Value)
    (hc : IsChain h a chain t) (hfuel : chain.length ≤ fuel) :
    (MapPairs h fuel fp none = none ∧ Map h fuel fe none = none) ∧
    (∀ v : Value, (∀ b, v ≠ .pairRef b) →
      MapPairs h fuel fp (some v) = some Err.invalidList ∧
      Map h fuel fe (some v) = some Err.invalidList) ∧
    (MapPairs h fuel fp (some (.pairRef a)) = mapPairsSpec h fp t 0 chain) ∧
    (Map h fuel fe (some (.pairRef a)) = mapSpec h fe t 0 chain) ∧
    ((∀ i x, fp i x = none) →
      MapPairs h fuel fp (some (.pairRef a)) =
        (if t = none then none else some Err.invalidList)) ∧
    ((∀ i x, fe i x = none) →
      Map h fuel fe (some (.pairRef a)) =
        (if t = none then none else some Err.invalidList)) := by
  have hmp : MapPairs h fuel fp (some (.pairRef a)) = mapPairsSpec h fp t 0 chain :=
    mapPairsLoop_eq_spec h fp hc fuel 0 hfuel
  have hme : Map h fuel fe (some (.pairRef a)) = mapSpec h fe t 0 chain :=
    mapLoop_eq_spec h fe hc fuel 0 hfuel
  refine ⟨⟨rfl, rfl⟩, ?_, hmp, hme, ?_, ?_⟩
  · intro v hv
    rcases v with b | n | s | i | b
    · exact ⟨rfl, rfl⟩
    · exact ⟨rfl, rfl⟩
    · exact ⟨rfl, rfl⟩
    · exact ⟨rfl, rfl⟩
    · exact absurd rfl (hv b)
  · intro hok
    rw [hmp, mapPairsSpec_allOk h fp t hok chain 0]
    cases t <;> simp
  · intro hok
    rw [hme, mapSpec_allOk h fe t hok chain 0]
    cases t <;> simp

/-- Witness for C3 on the concrete heap hpOne holding the proper list
with the single element 1: with the never-failing callbacks, MapPairs
succeeds on it and Map rejects a boolean with the invalid-list error. -/
theorem c3_traversal_invalid_list_witness :
    (MapPairs hpOne 1 noFailP (some (.pairRef 0)) = none) ∧
    (Map hpOne 1 noFailE (some (.boolean true)) = some Err.invalidList) := by
  have hchain : IsChain hpOne 0 [(0, ⟨some (.num 1), none, Point.undef⟩)] none := by
    have := IsChain.last (h := hpOne) 0 ⟨some (.num 1), none, Point.undef⟩ rfl
      (fun b hcon => by cases hcon)
    simpa using this
  have hfull := c3_traversal_invalid_list hpOne 1 noFailP noFailE 0
    [(0, ⟨some (.num 1), none, Point.undef⟩)] none hchain (by decide)
  exact ⟨hfull.2.2.2.2.1 (fun i x => rfl), (hfull.2.1 (.boolean true) (fun b hcon => by cases hcon)).2⟩

/-- C4: when the callback of a traversal fails at some pair, the
propagated error is the callback error prefixed exactly once with the
textual form of the pair location followed by colon and space, when
that location is defined, and is the callback error unchanged when the
location is undefined. -/
theorem c4_callback_error_location (h : Heap) (fuel : Nat)
    (fp : Nat → Nat → Option Err) (fe : Nat → Option Value → Option Err)
    (a : Nat) (chain : List (Nat × PairCell)) (t : Option Value)
    (j : Nat) (e : Err)
    (hc : IsChain h a chain t) (hfuel : chain.length ≤ fuel) (hj : j < chain.length)
    (hokp : ∀ i, i < j → fp i ((chain.getD i dummyPC).1) = none)
    (herrp : fp j ((chain.getD j dummyPC).1) = some e)
    (hoke : ∀ i, i < j → fe i ((chain.getD i dummyPC).2.car) = none)
    (herre : fe j ((chain.getD j dummyPC).2.car) = some e) :
    (MapPairs h fuel fp (some (.pairRef a)) =
      some (if (((chain.getD j dummyPC).2.loc)).Undefined then e
            else .msg ((((chain.getD j dummyPC).2.loc)).text ++ ": " ++ e.text))) ∧
    (Map h fuel fe (some (.pairRef a)) =
      some (if (((chain.getD j dummyPC).2.loc)).Undefined then e
            else .msg ((((chain.getD j dummyPC).2.loc)).text ++ ": " ++ e.text))) := by
  have hmem : h.pairs[((chain.getD j dummyPC).1)]? = some ((chain.getD j dummyPC).2) := by
    apply hc.mem_cell
    rw [List.getD_eq_getElem chain dummyPC hj]
    exact List.getElem_mem hj
  have hwrap : wrapLoc h ((chain.getD j dummyPC).1) e =
      (if (((chain.getD j dummyPC).2.loc)).Undefined then e
       else .msg ((((chain.getD j dummyPC).2.loc)).text ++ ": " ++ e.text)) := by
    rw [wrapLoc, Heap.cellAt_eq h hmem]
  have hokp0 : ∀ i, i < j → fp (0 + i) ((chain.getD i dummyPC).1) = none := by
    intro i hi
    rw [Nat.zero_add]
    exact hokp i hi
  have herrp0 : fp (0 + j) ((chain.getD j dummyPC).1) = some e := by
    rw [Nat.zero_add]
    exact herrp
  have hoke0 : ∀ i, i < j → fe (0 + i) ((chain.getD i dummyPC).2.car) = none := by
    intro i hi
    rw [Nat.zero_add]
    exact hoke i hi
  have herre0 : fe (0 + j) ((chain.getD j dummyPC).2.car) = some e := by
    rw [Nat.zero_add]
    exact herre
  constructor
  · rw [show MapPairs h fuel fp (some (.pairRef a)) = mapPairsLoop h fp fuel 0 a from rfl,
        mapPairsLoop_eq_spec h fp hc fuel 0 hfuel,
        mapPairsSpec_firstFail h fp t e chain 0 j hj hokp0 herrp0, hwrap]
  · rw [show Map h fuel fe (some (.pairRef a)) = mapLoop h fe fuel 0 a from rfl,
        mapLoop_eq_spec h fe hc fuel 0 hfuel,
        mapSpec_firstFail h fe t e chain 0 j hj hoke0 herre0, hwrap]

/-- Witness for C4 on the concrete heap hpLoc whose single pair carries
the defined location text test colon 1 colon 2: the failing callbacks
produce the location-prefixed message. -/
theorem c4_callback_error_location_witness :
    (MapPairs hpLoc 1 boomP (some (.pairRef 0)) =
      some (.msg ("test:1:2" ++ ": " ++ "boom"))) ∧
    (Map hpLoc 1 boomE (some (.pairRef 0)) =
      some (.msg ("test:1:2" ++ ": " ++ "boom"))) := by
  have hchain : IsChain hpLoc 0 [(0, ⟨some (.num 1), none, ⟨true, "test:1:2"⟩⟩)] none := by
    have := IsChain.last (h := hpLoc) 0 ⟨some (.num 1), none, ⟨true, "test:1:2"⟩⟩ rfl
      (fun b hcon => by cases hcon)
    simpa using this
  exact c4_callback_error_location hpLoc 1 boomP boomE 0
    [(0, ⟨some (.num 1), none, ⟨true, "test:1:2"⟩⟩)] none 0 (.msg "boom")
    hchain (by decide) (by decide)
    (fun i hi => absurd hi (Nat.not_lt_zero i)) rfl
    (fun i hi => absurd hi (Nat.not_lt_zero i)) rfl

/-- Witness for C10 at the concrete index minus one on the heap hp3:
list-tail returns the list unchanged, list-ref returns the first
element, and list-ref on nil errors naming the index. -/
theorem c10_negative_index_witness :
    (listTailB hp3 10 (some (.pairRef 0)) (some (.num (-1))) = .ok (some (.pairRef 0))) ∧
    (listRefB hp3 10 (some (.pairRef 0)) (some (.num (-1))) = .ok ((hp3.cellAt 0).car)) ∧
    (listRefB hp3 10 none (some (.num (-1))) =
      .error (.msg ("list-ref: index " ++ toString (-1:Int) ++ " out of range for list <nil>"))) :=
  ⟨(c10_negative_index hp3 10 (-1) (by decide)).1 (some (.pairRef 0)),
   (c10_negative_index hp3 10 (-1) (by decide)).2.1 0,
   (c10_negative_index hp3 10 (-1) (by decide)).2.2⟩


/-- C5 counterexample: the rendering of the empty-list value itself is
the quoted empty list, not a bare pair of parentheses: ToScheme of nil
yields the three characters quote, open parenthesis, close parenthesis,
which differ from the claimed two-character form. -/
theorem c5_counterexample :
    ToScheme hpOne 1 none = "\x27()" ∧ ("\x27()" : String) ≠ "()" :=
  ⟨rfl, by decide⟩

/-- C5 amended: a pair chain renders as an opening parenthesis, the
element renderings separated by single spaces, then, exactly when the
first cdr that is neither a pair nor nil is reached, a dotted tail, and
a closing parenthesis; a proper list adds no dotted tail; but the
empty-list value itself renders as the quoted empty list, not as a bare
pair of parentheses. -/
theorem c5_rendering (h : Heap) (a : Nat) (chain : List (Nat × PairCell)) (t : Option Value)
    (ss : List String) (fuel0 F : Nat)
    (hc : IsChain h a chain t)
    (hlen : ss.length = chain.length)
    (hcar : ∀ i, i < chain.length → ∀ f, fuel0 ≤ f →
        carStrF h f ((chain.getD i dummyPC).2.car) = ss.getD i "")
    (hF : fuel0 + chain.length + 1 ≤ F) :
    (schemeF h F (.pairRef a) = "(" ++ (renderJoin ss ++ tailStrF h t) ++ ")") ∧
    (ToScheme h F (some (.pairRef a)) = "(" ++ (renderJoin ss ++ tailStrF h t) ++ ")") ∧
    (ToScheme h F none = "\x27()") := by
  obtain ⟨Fp, rfl⟩ : ∃ Fp, F = Fp + 1 := ⟨F - 1, by omega⟩
  have hbody := pairBodyF_chain h hc ss fuel0 hlen hcar Fp (by omega)
  have hs : schemeF h (Fp+1) (.pairRef a) = "(" ++ (renderJoin ss ++ tailStrF h t) ++ ")" := by
    show "(" ++ pairBodyF h Fp a ++ ")" = _
    rw [hbody]
  exact ⟨hs, hs, rfl⟩

/-- Witness for C5 amended on the concrete heap hpOne holding the
one-element proper list (1). -/
theorem c5_rendering_witness :
    schemeF hpOne 2 (.pairRef 0) =
      "(" ++ (renderJoin ["1"] ++ tailStrF hpOne none) ++ ")" := by
  have hchain : IsChain hpOne 0 [(0, ⟨some (.num 1), none, Point.undef⟩)] none := by
    have := IsChain.last (h := hpOne) 0 ⟨some (.num 1), none, Point.undef⟩ rfl
      (fun b hcon => by cases hcon)
    simpa using this
  exact (c5_rendering hpOne 0 [(0, ⟨some (.num 1), none, Point.undef⟩)] none ["1"] 0 2
    hchain rfl
    (fun i hi f hf => by
      have hi0 : i = 0 := by simpa using Nat.lt_one_iff.mp (by simpa using hi)
      subst hi0
      rfl)
    (by decide)).1

/-- C6 counterexample: on the concrete pair at address 0 of hp3, a
successful set-car or set-cdr returns the nil Value, which is exactly
the empty-list sentinel, and applying the null? builtin to that result
yields true rather than false. -/
theorem c6_counterexample :
    ((setCarB hp3 10 (some (.pairRef 0)) (some (.num 42))).1 = .ok none) ∧
    ((setCdrB hp3 10 (some (.pairRef 0)) (some (.num 42))).1 = .ok none) ∧
    (nullB none = .ok (some (.boolean true))) ∧
    (Value.boolean true ≠ Value.boolean false) :=
  ⟨rfl, rfl, rfl, by decide⟩

/-- C6 amended: for every pair argument, a successful set-car or
set-cdr builtin call returns nil, the empty-list sentinel itself (not a
value distinct from it), and the null? builtin applied to that result
yields true. -/
theorem c6_set_result (h : Heap) (rfuel : Nat) (a : Nat) (v : Option Value) :
    ((setCarB h rfuel (some (.pairRef a)) v).1 = .ok none) ∧
    ((setCdrB h rfuel (some (.pairRef a)) v).1 = .ok none) ∧
    (nullB none = .ok (some (.boolean true))) :=
  ⟨rfl, rfl, rfl⟩

/-- C7: set-car and set-cdr error on a non-pair first argument with a
message naming the offending value, leaving the heap unchanged; on a
pair they replace exactly the addressed slot: the other slot and the
location of the cell are preserved, every other cell is untouched, and
the identifier store is untouched. -/
theorem c7_set_mutation (h : Heap) (rfuel : Nat) (v w : Option Value) (a : Nat) (cell : PairCell)
    (ha : h.pairs[a]? = some cell) :
    ((∀ b, v ≠ some (Value.pairRef b)) →
      (setCarB h rfuel v w =
        (.error (.msg ("set-car!: not a pair: " ++ displayOpt h rfuel v)), h)) ∧
      (setCdrB h rfuel v w =
        (.error (.msg ("set-cdr!: not a pair: " ++ displayOpt h rfuel v)), h))) ∧
    ((setCarB h rfuel (some (.pairRef a)) w).2.pairs[a]? = some { cell with car := w }) ∧
    ((setCdrB h rfuel (some (.pairRef a)) w).2.pairs[a]? = some { cell with cdr := w }) ∧
    (∀ b, b ≠ a → (setCarB h rfuel (some (.pairRef a)) w).2.pairs[b]? = h.pairs[b]?) ∧
    (∀ b, b ≠ a → (setCdrB h rfuel (some (.pairRef a)) w).2.pairs[b]? = h.pairs[b]?) ∧
    ((setCarB h rfuel (some (.pairRef a)) w).2.idents = h.idents) ∧
    ((setCdrB h rfuel (some (.pairRef a)) w).2.idents = h.idents) := by
  have hlt : a < h.pairs.length := by
    have := List.getElem?_eq_some.mp ha
    exact this.1
  refine ⟨?_, ?_, ?_, ?_, ?_, rfl, rfl⟩
  · intro hv
    rcases v with _ | vv
    · exact ⟨rfl, rfl⟩
    · rcases vv with bb | n | s | i | b
      · exact ⟨rfl, rfl⟩
      · exact ⟨rfl, rfl⟩
      · exact ⟨rfl, rfl⟩
      · exact ⟨rfl, rfl⟩
      · exact absurd rfl (hv b)
  · show (h.pairs.set a { h.cellAt a with car := w })[a]? = some { cell with car := w }
    rw [Heap.cellAt_eq h ha]
    rw [List.getElem?_set_self]
    omega
  · show (h.pairs.set a { h.cellAt a with cdr := w })[a]? = some { cell with cdr := w }
    rw [Heap.cellAt_eq h ha]
    rw [List.getElem?_set_self]
    omega
  · intro b hb
    show (h.pairs.set a { h.cellAt a with car := w })[b]? = h.pairs[b]?
    rw [List.getElem?_set_ne (by omega)]
  · intro b hb
    show (h.pairs.set a { h.cellAt a with cdr := w })[b]? = h.pairs[b]?
    rw [List.getElem?_set_ne (by omega)]

/-- Witness for C7 on the concrete heap hp3: set-car on the non-pair 7
errors naming it and leaves the heap unchanged, and set-car at address
0 replaces exactly the car slot of that cell. -/
theorem c7_set_mutation_witness :
    (setCarB hp3 10 (some (.num 7)) (some (.num 42)) =
      (.error (.msg ("set-car!: not a pair: " ++ displayOpt hp3 10 (some (.num 7)))), hp3)) ∧
    ((setCarB hp3 10 (some (.pairRef 0)) (some (.num 42))).2.pairs[0]? =
      some ⟨some (.num 42), some (.pairRef 1), Point.undef⟩) :=
  ⟨((c7_set_mutation hp3 10 (some (.num 7)) (some (.num 42)) 0
      ⟨some (.num 1), some (.pairRef 1), Point.undef⟩ rfl).1
      (fun b hcon => by cases hcon)).1,
   (c7_set_mutation hp3 10 (some (.num 7)) (some (.num 42)) 0
      ⟨some (.num 1), some (.pairRef 1), Point.undef⟩ rfl).2.1⟩

/-- C8 counterexample: on the concrete heap hpIds, the identifier
objects at the two distinct addresses 0 and 1 are not the same storage
yet share the name foo, and the identity test Eq nevertheless returns
true for them, because Identifier.Eq delegates to name equality. -/
theorem c8_counterexample :
    (eqValue hpIds (.identRef 0) (.identRef 1) = true) ∧ (0 : Nat) ≠ 1 :=
  ⟨rfl, by decide⟩

/-- C8 amended: the identity test Eq is storage identity on pairs (same
cell address), but on identifiers it delegates to Equal and compares
the Name fields, so two distinct identifier objects sharing a name are
Eq even though they are not the same storage location. -/
theorem c8_eq_identity (h : Heap) :
    (∀ a b : Nat, eqValue h (.pairRef a) (.pairRef b) = (a == b)) ∧
    (∀ a b : Nat, eqValue h (.identRef a) (.identRef b) = (h.identName a == h.identName b)) :=
  ⟨fun _ _ => rfl, fun _ _ => rfl⟩

/-- C9: two distinct pair cells with structurally equal car and cdr
contents are not Eq but are Equal; one cell reached through two aliases
is Eq to itself; Equal on pairs recurses structurally through the car
and cdr slots; and Equal between two values of different concrete kinds
is always false. -/
theorem c9_eq_equal (h : Heap) (fuel : Nat) (a b : Nat) (ca cb : PairCell)
    (hab : a ≠ b) (hca : h.pairs[a]? = some ca) (hcb : h.pairs[b]? = some cb)
    (hcar : Equal h fuel ca.car cb.car = true) (hcdr : Equal h fuel ca.cdr cb.cdr = true) :
    (eqValue h (.pairRef a) (.pairRef b) = false) ∧
    (equalValue h (fuel+1) (.pairRef a) (.pairRef b) = true) ∧
    (eqValue h (.pairRef a) (.pairRef a) = true) ∧
    (∀ (x y f : Nat),
      equalValue h (f+1) (.pairRef x) (.pairRef y) =
        (Equal h f ((h.cellAt x).car) ((h.cellAt y).car) &&
         Equal h f ((h.cellAt x).cdr) ((h.cellAt y).cdr))) ∧
    (∀ (f : Nat) (v w : Value), v.kind ≠ w.kind → equalValue h f v w = false) := by
  refine ⟨?_, ?_, ?_, fun x y f => equalValue_pair_succ h f x y, equalValue_cross h⟩
  · simp [eqValue, hab]
  · rw [equalValue_pair_succ, Heap.cellAt_eq h hca, Heap.cellAt_eq h hcb, hcar, hcdr]
    rfl
  · simp [eqValue]

/-- Witness for C9 on the concrete heap hpTwin holding two distinct
cells that each contain the one-element list (1). -/
theorem c9_eq_equal_witness :
    (eqValue hpTwin (.pairRef 0) (.pairRef 1) = false) ∧
    (equalValue hpTwin 2 (.pairRef 0) (.pairRef 1) = true) ∧
    (eqValue hpTwin (.pairRef 0) (.pairRef 0) = true) :=
  ⟨(c9_eq_equal hpTwin 1 0 1
      ⟨some (.num 1), none, Point.undef⟩ ⟨some (.num 1), none, Point.undef⟩
      (by decide) rfl rfl rfl rfl).1,
   (c9_eq_equal hpTwin 1 0 1
      ⟨some (.num 1), none, Point.undef⟩ ⟨some (.num 1), none, Point.undef⟩
      (by decide) rfl rfl rfl rfl).2.1,
   (c9_eq_equal hpTwin 1 0 1
      ⟨some (.num 1), none, Point.undef⟩ ⟨some (.num 1), none, Point.undef⟩
      (by decide) rfl rfl rfl rfl).2.2.1⟩

end SchemeSpec
